import Mathlib

/-!
Verification of the Golt fixed-layout account codec, PDA helpers and the
entity-registry processors.

Byte buffers are modelled as `List Nat` (each entry a byte value, `< 256`
where it matters).  Rust's `copy_from_slice` into a subrange becomes
`writeSlice`, range reads such as `data[8..16].try_into()` become
`readSlice`, and `u64::from_le_bytes` / `to_le_bytes` become
`fromLeBytes` / `toLeBytes` on the value's little-endian bit pattern.
Fallible Rust functions returning `Option` / `Result` are embedded as
`Option` / `Except`.  Index-out-of-range panics are outside the model;
every theorem that touches a buffer carries the length hypotheses the
source's types or explicit checks guarantee.
-/

namespace Golt


/-- Little-endian encoding of a value into `k` bytes, mirroring the
`to_le_bytes` calls in the pack implementations. -/
def toLeBytes : Nat → Nat → List Nat
  | 0, _ => []
  | k + 1, n => n % 256 :: toLeBytes k (n / 256)

/-- Little-endian decoding of a byte list, mirroring `from_le_bytes`. -/
def fromLeBytes : List Nat → Nat
  | [] => 0
  | b :: rest => b + 256 * fromLeBytes rest

/-- Every entry of the list is a byte value. -/
def bytesWF (l : List Nat) : Prop := ∀ b ∈ l, b < 256

instance (l : List Nat) : Decidable (bytesWF l) := by
  unfold bytesWF; infer_instance

/-- `data[off..off + src.length] = src`: the effect of Rust
`data[off..off+n].copy_from_slice(src)` (callers guarantee the range fits,
as the source's slice types do). -/
def writeSlice (data : List Nat) (off : Nat) (src : List Nat) : List Nat :=
  data.take off ++ src ++ data.drop (off + src.length)

/-- `data[off..off+len]` as an owned list: the effect of reads such as
`data[8..16].try_into()`. -/
def readSlice (data : List Nat) (off len : Nat) : List Nat :=
  (data.drop off).take len

/-! ## The registry `Entity` record (`ecs-registry/src/state.rs`) -/

/-- `ENTITY_DISCRIMINATOR`: the bytes of `"entity"` followed by two zero
bytes, exactly the constant written out in `state.rs`. -/
def ENTITY_DISCRIMINATOR : List Nat := [0x65, 0x6e, 0x74, 0x69, 0x74, 0x79, 0x00, 0x00]

/-- `ENTITY_SEED = b"entity"`. -/
def ENTITY_SEED : List Nat := [0x65, 0x6e, 0x74, 0x69, 0x74, 0x79]

/-- The `Entity` struct.  `id` carries the `u64` value, `owner` the 32
pubkey bytes, `_reserved` the 6 reserved bytes. -/
structure Entity where
  discriminator : List Nat
  id : Nat
  owner : List Nat
  active : Bool
  bump : Nat
  _reserved : List Nat
deriving Repr, DecidableEq

namespace Entity


/-- `Entity::SIZE`. -/
def SIZE : Nat := 56

/-- The invariants Rust's types give every `Entity` value: array fields
have their declared lengths, `u8`/`u64` fields fit their width, and all
stored bytes are byte values. -/
def WF (e : Entity) : Prop :=
  e.discriminator.length = 8 ∧ bytesWF e.discriminator ∧
  e.id < 2 ^ 64 ∧
  e.owner.length = 32 ∧ bytesWF e.owner ∧
  e.bump < 256 ∧
  e._reserved.length = 6 ∧ bytesWF e._reserved

instance (e : Entity) : Decidable e.WF := by
  unfold WF; infer_instance

/-- `Entity::unpack`. -/
def unpack (data : List Nat) : Option Entity :=
  if data.length < SIZE then none
  else
    let discriminator := readSlice data 0 8
    if discriminator ≠ ENTITY_DISCRIMINATOR then none
    else some
      { discriminator := discriminator
        id := fromLeBytes (readSlice data 8 8)
        owner := readSlice data 16 32
        active := decide (data.getD 48 0 ≠ 0)
        bump := data.getD 49 0
        _reserved := readSlice data 50 6 }

/-- `Entity::pack`: six successive range writes at fixed offsets. -/
def pack (e : Entity) (data : List Nat) : List Nat :=
  let d0 := writeSlice data 0 e.discriminator
  let d1 := writeSlice d0 8 (toLeBytes 8 e.id)
  let d2 := writeSlice d1 16 e.owner
  let d3 := writeSlice d2 48 [if e.active then 1 else 0]
  let d4 := writeSlice d3 49 [e.bump]
  writeSlice d4 50 e._reserved

/-- `Entity::new`. -/
def new (id : Nat) (owner : List Nat) (bump : Nat) : Entity :=
  { discriminator := ENTITY_DISCRIMINATOR
    id := id
    owner := owner
    active := true
    bump := bump
    _reserved := List.replicate 6 0 }

/-- The 56 bytes `pack` lays down, in layout order. -/
def packBytes (e : Entity) : List Nat :=
  e.discriminator ++ (toLeBytes 8 e.id ++ (e.owner ++
    ((if e.active then 1 else 0) :: (e.bump :: e._reserved))))

end Entity


/-! ## The macro-generated component codec (`ecs-macros/src/component.rs`,
`ecs-macros/src/utils.rs`).  A schema is the ordered list of field kinds
`type_size` accepts; the generated `unpack`/`pack` read and write each
field at its running offset, starting at 8.  Signed integers and floats
are carried as their little-endian bit patterns, which is exactly what
`to_le_bytes`/`from_le_bytes` move. -/

/-- The field types `type_size` knows. -/
inductive FieldKind where
  | u8 | i8 | bool
  | u16 | i16
  | u32 | i32 | f32
  | u64 | i64 | f64
  | u128 | i128
  | pubkey
  | arr (n : Nat)
deriving Repr, DecidableEq

/-- `type_size`. -/
def FieldKind.size : FieldKind → Nat
  | .u8 | .i8 | .bool => 1
  | .u16 | .i16 => 2
  | .u32 | .i32 | .f32 => 4
  | .u64 | .i64 | .f64 => 8
  | .u128 | .i128 => 16
  | .pubkey => 32
  | .arr n => n

/-- A field value: scalars by their little-endian bit pattern, booleans,
byte arrays (and `Pubkey`) by their bytes. -/
inductive FieldVal where
  | scalar (bits : Nat)
  | bool (b : Bool)
  | bytes (l : List Nat)
deriving Repr, DecidableEq

/-- Scalar kinds are everything but `bool`, `Pubkey` and arrays. -/
def FieldKind.isScalar : FieldKind → Bool
  | .bool | .pubkey | .arr _ => false
  | _ => true

/-- The value fits its declared kind (what Rust's field types guarantee). -/
def ValWF : FieldKind → FieldVal → Prop
  | .bool, .bool _ => True
  | .pubkey, .bytes l => l.length = 32 ∧ bytesWF l
  | .arr n, .bytes l => l.length = n ∧ bytesWF l
  | k, .scalar m => k.isScalar = true ∧ m < 256 ^ k.size
  | _, _ => False

/-- The bytes `generate_pack_field` writes for one field. -/
def encodeField (k : FieldKind) (v : FieldVal) : List Nat :=
  match v with
  | .scalar n => toLeBytes k.size n
  | .bool b => [if b then 1 else 0]
  | .bytes l => l

/-- The value `generate_unpack_field` reads for one field. -/
def decodeField (k : FieldKind) (bytes : List Nat) : FieldVal :=
  match k with
  | .bool => .bool (decide (bytes.getD 0 0 ≠ 0))
  | .pubkey => .bytes bytes
  | .arr _ => .bytes bytes
  | _ => .scalar (fromLeBytes bytes)

/-- The pack loop the macro emits: each field written at its running
offset (`offset` starts at 8 and advances by `type_size`). -/
def packFields : List (FieldKind × FieldVal) → Nat → List Nat → List Nat
  | [], _, data => data
  | (k, v) :: rest, off, data =>
      packFields rest (off + k.size) (writeSlice data off (encodeField k v))

/-- The unpack loop the macro emits. -/
def unpackFields : List FieldKind → Nat → List Nat → List FieldVal
  | [], _, _ => []
  | k :: rest, off, data =>
      decodeField k (readSlice data off k.size) :: unpackFields rest (off + k.size) data

/-- Sum of the field sizes. -/
def sizeFields : List FieldKind → Nat
  | [] => 0
  | k :: rest => k.size + sizeFields rest

/-- All encoded fields, in layout order. -/
def encodeAll : List (FieldKind × FieldVal) → List Nat
  | [] => []
  | (k, v) :: rest => encodeField k v ++ encodeAll rest

/-- A component schema: its 8-byte discriminator and its field kinds. -/
structure Schema where
  disc : List Nat
  fields : List FieldKind
deriving Repr, DecidableEq

/-- `Component::SIZE` as the macro computes it: 8 plus the field sizes. -/
def Schema.SIZE (s : Schema) : Nat := 8 + sizeFields s.fields

/-- The macro-generated `Component::unpack`. -/
def Schema.unpack (s : Schema) (data : List Nat) : Option (List FieldVal) :=
  if data.length < s.SIZE then none
  else if readSlice data 0 8 ≠ s.disc then none
  else some (unpackFields s.fields 8 data)

/-- The macro-generated `Component::pack`: discriminator first, then each
field at its fixed offset. -/
def Schema.pack (s : Schema) (vals : List FieldVal) (data : List Nat) : List Nat :=
  packFields (s.fields.zip vals) 8 (writeSlice data 0 s.disc)

/-! ## `string_to_discriminator` (`ecs-macros/src/utils.rs`) -/

/-- `string_to_discriminator`: start from an 8-byte zero buffer and copy
the first `min s.length 8` seed bytes into its front. -/
def string_to_discriminator (s : List Nat) : List Nat :=
  writeSlice (List.replicate 8 0) 0 (s.take (min s.length 8))

/-! ## PDA helpers (`ecs-runtime/src/pda.rs`).  `find_program_address` is a
platform primitive (an external collaborator per the spec), so the helpers
are parameterized by it. -/

abbrev Pubkey := List Nat

/-- The type of the platform's `find_program_address`. -/
abbrev Fpa := List (List Nat) → Pubkey → Pubkey × Nat

/-- `GoltError` (`ecs-runtime/src/error.rs`). -/
inductive GoltError where
  | NotInitialized | AlreadyInitialized | InvalidAuthority | InvalidAccountData
  | AccountNotWritable | AccountNotSigner | InvalidProgramId | InvalidPda
  | InvalidDiscriminator | Overflow | Underflow | InvalidInstructionData
  | EntityNotActive | ComponentNotFound
deriving Repr, DecidableEq

/-- `derive_pda`. -/
def derive_pda (fpa : Fpa) (seeds : List (List Nat)) (programId : Pubkey) :
    Pubkey × Nat :=
  fpa seeds programId

/-- `verify_pda`: recompute, compare, return the recomputed bump. -/
def verify_pda (fpa : Fpa) (accountKey : Pubkey) (seeds : List (List Nat))
    (programId : Pubkey) : Except GoltError Nat :=
  let ep := derive_pda fpa seeds programId
  if accountKey ≠ ep.1 then .error .InvalidPda
  else .ok ep.2

/-! ## The entity-registry program (`ecs-registry/src`) -/

/-- `RegistryError` (`ecs-registry/src/error.rs`). -/
inductive RegistryError where
  | InvalidInstruction | EntityAlreadyExists | EntityNotFound
  | InvalidEntityDiscriminator | Unauthorized | EntityNotActive
  | InvalidPda | AccountNotWritable | MissingSignature
deriving Repr, DecidableEq

/-- Program-level errors: registry errors, runtime errors, the platform's
errors for too few accounts and failed account creation. -/
inductive ProgramError where
  | NotEnoughAccountKeys
  | Registry (e : RegistryError)
  | Golt (e : GoltError)
  | AllocationFailed
deriving Repr, DecidableEq

/-- The slice of `AccountInfo` state the processors read and write. -/
structure AccountInfo where
  key : Pubkey
  lamports : Nat
  data : List Nat
  owner : Pubkey
  isSigner : Bool
  isWritable : Bool
deriving Repr, DecidableEq

instance : Inhabited AccountInfo := ⟨⟨[], 0, [], [], false, false⟩⟩

/-- `CreateEntityInstruction` (`ecs-registry/src/instruction.rs`). -/
structure CreateEntityInstruction where
  discriminator : Nat
  entity_id : Nat
deriving Repr, DecidableEq

/-- `CreateEntityInstruction::unpack` (tag 0, then the id as u64 LE). -/
def CreateEntityInstruction.unpack (data : List Nat) :
    Option CreateEntityInstruction :=
  if data.length < 9 then none
  else if data.getD 0 0 ≠ 0 then none
  else some ⟨0, fromLeBytes (readSlice data 1 8)⟩

/-- `TransferOwnershipInstruction` (tag 1, no payload). -/
structure TransferOwnershipInstruction where
  discriminator : Nat
deriving Repr, DecidableEq

def TransferOwnershipInstruction.unpack (data : List Nat) :
    Option TransferOwnershipInstruction :=
  if data.isEmpty then none
  else if data.getD 0 0 ≠ 1 then none
  else some ⟨1⟩

/-- `DeactivateEntityInstruction` (tag 2, no payload). -/
structure DeactivateEntityInstruction where
  discriminator : Nat
deriving Repr, DecidableEq

def DeactivateEntityInstruction.unpack (data : List Nat) :
    Option DeactivateEntityInstruction :=
  if data.isEmpty then none
  else if data.getD 0 0 ≠ 2 then none
  else some ⟨2⟩

/-- Modelled from the spec: the platform allocation primitive
`CreateAccount` (from `pinocchio-system`, not part of this repository) is,
per §4.4(c) and §6 of the spec, "a single atomic platform operation that
fails wholesale if the payer has insufficient funds or the account is not
actually empty"; on success it allocates `space` zeroed bytes owned by
`owner`, moving `lamports` from the payer. -/
def createAccount (payer target : AccountInfo) (lamports space : Nat)
    (owner : Pubkey) : Option (AccountInfo × AccountInfo) :=
  if target.data.length ≠ 0 ∨ target.lamports ≠ 0 then none
  else if payer.lamports < lamports then none
  else some ({ payer with lamports := payer.lamports - lamports },
    { target with
        lamports := lamports
        data := List.replicate space 0
        owner := owner })

/-- `process_create_entity` (`ecs-registry/src/processor.rs`).  Errors
carry no state: the source writes nothing before its final `pack`. -/
def process_create_entity (fpa : Fpa) (rentMin : Nat → Nat)
    (programId : Pubkey) (accounts : List AccountInfo)
    (instructionData : List Nat) : Except ProgramError (List AccountInfo) :=
  match CreateEntityInstruction.unpack instructionData with
  | none => .error (.Registry .InvalidInstruction)
  | some instruction =>
    if accounts.length < 3 then .error .NotEnoughAccountKeys
    else
      let payer := accounts.getD 0 default
      let entityAccount := accounts.getD 1 default
      if !payer.isSigner then .error (.Registry .MissingSignature)
      else
        let entityIdBytes := toLeBytes 8 instruction.entity_id
        let ep := fpa [ENTITY_SEED, entityIdBytes] programId
        if entityAccount.key ≠ ep.1 then .error (.Registry .InvalidPda)
        else if !entityAccount.data.isEmpty then
          .error (.Registry .EntityAlreadyExists)
        else
          let lamports := rentMin Entity.SIZE
          match createAccount payer entityAccount lamports Entity.SIZE
              programId with
          | none => .error .AllocationFailed
          | some (payer2, entityAccount2) =>
            let entity := Entity.new instruction.entity_id payer.key ep.2
            let newData := entity.pack entityAccount2.data
            .ok ((accounts.set 0 payer2).set 1
              { entityAccount2 with data := newData })

/-- `process_transfer_ownership`. -/
def process_transfer_ownership (accounts : List AccountInfo)
    (instructionData : List Nat) : Except ProgramError (List AccountInfo) :=
  match TransferOwnershipInstruction.unpack instructionData with
  | none => .error (.Registry .InvalidInstruction)
  | some _ =>
    if accounts.length < 3 then .error .NotEnoughAccountKeys
    else
      let owner := accounts.getD 0 default
      let entityAccount := accounts.getD 1 default
      let newOwner := accounts.getD 2 default
      if !owner.isSigner then .error (.Registry .MissingSignature)
      else if !entityAccount.isWritable then
        .error (.Registry .AccountNotWritable)
      else
        match Entity.unpack entityAccount.data with
        | none => .error (.Registry .InvalidEntityDiscriminator)
        | some entity =>
          if entity.owner ≠ owner.key then .error (.Registry .Unauthorized)
          else if !entity.active then .error (.Registry .EntityNotActive)
          else
            let entity2 := { entity with owner := newOwner.key }
            .ok (accounts.set 1
              { entityAccount with data := entity2.pack entityAccount.data })

/-- `process_deactivate_entity`.  Note: no `active` precondition. -/
def process_deactivate_entity (accounts : List AccountInfo)
    (instructionData : List Nat) : Except ProgramError (List AccountInfo) :=
  match DeactivateEntityInstruction.unpack instructionData with
  | none => .error (.Registry .InvalidInstruction)
  | some _ =>
    if accounts.length < 2 then .error .NotEnoughAccountKeys
    else
      let owner := accounts.getD 0 default
      let entityAccount := accounts.getD 1 default
      if !owner.isSigner then .error (.Registry .MissingSignature)
      else if !entityAccount.isWritable then
        .error (.Registry .AccountNotWritable)
      else
        match Entity.unpack entityAccount.data with
        | none => .error (.Registry .InvalidEntityDiscriminator)
        | some entity =>
          if entity.owner ≠ owner.key then .error (.Registry .Unauthorized)
          else
            let entity2 := { entity with active := false }
            .ok (accounts.set 1
              { entityAccount with data := entity2.pack entityAccount.data })

/-- `process_instruction` dispatch. -/
def process_instruction (fpa : Fpa) (rentMin : Nat → Nat) (programId : Pubkey)
    (accounts : List AccountInfo) (instructionData : List Nat) :
    Except ProgramError (List AccountInfo) :=
  if instructionData.isEmpty then .error (.Registry .InvalidInstruction)
  else
    match instructionData.getD 0 0 with
    | 0 => process_create_entity fpa rentMin programId accounts instructionData
    | 1 => process_transfer_ownership accounts instructionData
    | 2 => process_deactivate_entity accounts instructionData
    | _ => .error (.Registry .InvalidInstruction)

/-- `init_component_account` (`ecs-runtime/src/account.rs`): rent, the
platform `CreateAccount`, then the discriminator write into bytes 0..8.
The source performs no emptiness check of its own. -/
def init_component_account (rentMin : Nat → Nat) (sz : Nat) (disc : List Nat)
    (payer account : AccountInfo) (programId : Pubkey) :
    Except ProgramError (AccountInfo × AccountInfo) :=
  let lamports := rentMin sz
  match createAccount payer account lamports sz programId with
  | none => .error .AllocationFailed
  | some (payer2, account2) =>
    .ok (payer2, { account2 with data := writeSlice account2.data 0 disc })

/-! ## The discriminator invariant across registry operations -/

/-- The stored record's first eight bytes are the entity discriminator. -/
def entityInv (a : AccountInfo) : Prop :=
  a.data.take 8 = ENTITY_DISCRIMINATOR

/-- One registry invocation seen from the entity account: the
surrounding accounts and the instruction bytes. -/
structure OpCtx where
  first : AccountInfo
  third : AccountInfo
  instr : List Nat

/-- Rust guarantees every `Pubkey` is 32 bytes. -/
def CtxWF (c : OpCtx) : Prop :=
  c.first.key.length = 32 ∧ c.third.key.length = 32

instance (a : AccountInfo) : Decidable (entityInv a) := by
  unfold entityInv; infer_instance

instance (c : OpCtx) : Decidable (CtxWF c) := by
  unfold CtxWF; infer_instance

instance {ε α : Type} [DecidableEq ε] [DecidableEq α] :
    DecidableEq (Except ε α)
  | .error e1, .error e2 =>
    if h : e1 = e2 then .isTrue (by rw [h]) else .isFalse (by simp [h])
  | .error _, .ok _ => .isFalse (by simp)
  | .ok _, .error _ => .isFalse (by simp)
  | .ok a1, .ok a2 =>
    if h : a1 = a2 then .isTrue (by rw [h]) else .isFalse (by simp [h])

/-- Run one instruction with the entity account in slot 1, keeping the
old account state when the instruction fails. -/
def stepEntity (fpa : Fpa) (rentMin : Nat → Nat) (programId : Pubkey)
    (e : AccountInfo) (c : OpCtx) : AccountInfo :=
  match process_instruction fpa rentMin programId [c.first, e, c.third]
      c.instr with
  | .ok accs => accs.getD 1 e
  | .error _ => e

/-! ## Theorems -/

theorem toLeBytes_length (k n : Nat) : (toLeBytes k n).length = k := by
  induction k generalizing n with
  | zero => rfl
  | succ k ih => simp [toLeBytes, ih]

theorem bytesWF_toLeBytes (k n : Nat) : bytesWF (toLeBytes k n) := by
  induction k generalizing n with
  | zero => intro b hb; simp [toLeBytes] at hb
  | succ k ih =>
    intro b hb
    simp only [toLeBytes, List.mem_cons] at hb
    rcases hb with rfl | hb
    · exact Nat.mod_lt _ (by norm_num)
    · exact ih (n / 256) b hb

theorem fromLeBytes_toLeBytes (k n : Nat) (h : n < 256 ^ k) :
    fromLeBytes (toLeBytes k n) = n := by
  induction k generalizing n with
  | zero => simp at h; simp [h, toLeBytes, fromLeBytes]
  | succ k ih =>
    have hdiv : n / 256 < 256 ^ k := by
      rw [Nat.div_lt_iff_lt_mul (by norm_num : 0 < 256)]
      calc n < 256 ^ (k + 1) := h
        _ = 256 ^ k * 256 := by ring
    simp only [toLeBytes, fromLeBytes, ih (n / 256) hdiv]
    omega

theorem toLeBytes_fromLeBytes (l : List Nat) (hb : bytesWF l) :
    toLeBytes l.length (fromLeBytes l) = l := by
  induction l with
  | nil => rfl
  | cons b rest ih =>
    have hbb : b < 256 := hb b (by simp)
    have hrest : bytesWF rest := fun x hx => hb x (by simp [hx])
    simp only [List.length_cons, toLeBytes, fromLeBytes]
    have h1 : (b + 256 * fromLeBytes rest) % 256 = b := by omega
    have h2 : (b + 256 * fromLeBytes rest) / 256 = fromLeBytes rest := by omega
    rw [h1, h2, ih hrest]

theorem fromLeBytes_lt (l : List Nat) (hb : bytesWF l) :
    fromLeBytes l < 256 ^ l.length := by
  induction l with
  | nil => simp [fromLeBytes]
  | cons b rest ih =>
    have hbb : b < 256 := hb b (by simp)
    have hrest := ih (fun x hx => hb x (by simp [hx]))
    simp only [fromLeBytes, List.length_cons, pow_succ]
    calc b + 256 * fromLeBytes rest
        ≤ 255 + 256 * fromLeBytes rest := by omega
      _ < 256 * (fromLeBytes rest + 1) := by ring_nf; omega
      _ ≤ 256 ^ rest.length * 256 := by
          rw [Nat.mul_comm]
          exact Nat.mul_le_mul_right 256 (by omega)

theorem writeSlice_length {data src : List Nat} {off : Nat}
    (h : off + src.length ≤ data.length) :
    (writeSlice data off src).length = data.length := by
  simp [writeSlice]
  omega

theorem writeSlice_zero (data src : List Nat) :
    writeSlice data 0 src = src ++ data.drop src.length := by
  simp [writeSlice]

/-- Writing at the boundary between a known front part and the rest. -/
theorem writeSlice_at_length (pre rest src : List Nat) :
    writeSlice (pre ++ rest) pre.length src = pre ++ (src ++ rest.drop src.length) := by
  unfold writeSlice
  rw [List.take_left, List.drop_append, List.append_assoc]

theorem writeSlice_concrete {n : Nat} (pre rest src : List Nat) (h : pre.length = n) :
    writeSlice (pre ++ rest) n src = pre ++ (src ++ rest.drop src.length) := by
  subst h; exact writeSlice_at_length pre rest src

namespace Entity

theorem packBytes_length (e : Entity) (h8 : e.discriminator.length = 8)
    (h32 : e.owner.length = 32) (h6 : e._reserved.length = 6) :
    (packBytes e).length = 56 := by
  simp [packBytes, h8, h32, h6, toLeBytes_length]

/-- Under the length facts Rust's array types guarantee, `pack` rewrites
the first 56 bytes and keeps the tail. -/
theorem pack_eq (e : Entity) (data : List Nat)
    (h8 : e.discriminator.length = 8) (h32 : e.owner.length = 32)
    (h6 : e._reserved.length = 6) :
    e.pack data = packBytes e ++ data.drop 56 := by
  simp only [pack]
  rw [writeSlice_zero, h8]
  rw [writeSlice_concrete e.discriminator (data.drop 8) _ h8,
    toLeBytes_length, List.drop_drop]
  rw [show (8 + 8 : Nat) = 16 from rfl, ← List.append_assoc]
  rw [writeSlice_concrete _ (data.drop 16) e.owner
    (by simp [h8, toLeBytes_length]), h32, List.drop_drop]
  rw [show (16 + 32 : Nat) = 48 from rfl, ← List.append_assoc]
  rw [writeSlice_concrete _ (data.drop 48) [if e.active then 1 else 0]
    (by simp [h8, h32, toLeBytes_length]),
    List.length_singleton, List.drop_drop]
  rw [show (48 + 1 : Nat) = 49 from rfl, ← List.append_assoc]
  rw [writeSlice_concrete _ (data.drop 49) [e.bump]
    (by simp [h8, h32, toLeBytes_length]),
    List.length_singleton, List.drop_drop]
  rw [show (49 + 1 : Nat) = 50 from rfl, ← List.append_assoc]
  rw [writeSlice_concrete _ (data.drop 50) e._reserved
    (by simp [h8, h32, toLeBytes_length]), h6, List.drop_drop]
  simp [packBytes]

end Entity


theorem readSlice_length {data : List Nat} {off len : Nat}
    (h : off + len ≤ data.length) : (readSlice data off len).length = len := by
  simp [readSlice]
  omega

theorem bytesWF_readSlice {data : List Nat} (off len : Nat) (h : bytesWF data) :
    bytesWF (readSlice data off len) := by
  intro b hb
  exact h b (List.drop_subset off data (List.take_subset len _ hb))

theorem readSlice_zero_left (data : List Nat) (len : Nat) :
    readSlice data 0 len = data.take len := by
  simp [readSlice]

theorem getD_drop_zero (l : List Nat) (n d : Nat) :
    l.getD n d = (l.drop n).getD 0 d := by
  induction n generalizing l with
  | zero => simp
  | succ n ih =>
    cases l with
    | nil => simp
    | cons x xs => simp [ih xs]

namespace Entity


/-- What `unpack` returns on a long-enough, correctly tagged buffer. -/
theorem unpack_of_tag (buf : List Nat) (h56 : 56 ≤ buf.length)
    (hdisc : readSlice buf 0 8 = ENTITY_DISCRIMINATOR) :
    unpack buf = some
      { discriminator := ENTITY_DISCRIMINATOR
        id := fromLeBytes (readSlice buf 8 8)
        owner := readSlice buf 16 32
        active := decide (buf.getD 48 0 ≠ 0)
        bump := buf.getD 49 0
        _reserved := readSlice buf 50 6 } := by
  unfold unpack SIZE
  rw [if_neg (by omega)]
  simp [hdisc]

theorem unpack_none_iff (buf : List Nat) :
    unpack buf = none ↔ buf.length < 56 ∨ readSlice buf 0 8 ≠ ENTITY_DISCRIMINATOR := by
  constructor
  · intro h
    by_cases h1 : buf.length < 56
    · exact Or.inl h1
    · by_cases h2 : readSlice buf 0 8 = ENTITY_DISCRIMINATOR
      · rw [unpack_of_tag buf (by omega) h2] at h
        exact absurd h (by simp)
      · exact Or.inr h2
  · intro h
    unfold unpack SIZE
    rcases h with h | h
    · rw [if_pos h]
    · by_cases h1 : buf.length < 56
      · rw [if_pos h1]
      · rw [if_neg h1]
        simp [h]

/-- A successful `unpack` forces the invariants the processors rely on. -/
theorem unpack_some_facts {buf : List Nat} {e : Entity}
    (h : unpack buf = some e) :
    56 ≤ buf.length ∧ e.discriminator = ENTITY_DISCRIMINATOR ∧
      e.discriminator.length = 8 ∧ e.owner.length = 32 ∧ e._reserved.length = 6 := by
  by_cases h1 : buf.length < 56
  · rw [(unpack_none_iff buf).2 (Or.inl h1)] at h; exact absurd h (by simp)
  · by_cases h2 : readSlice buf 0 8 = ENTITY_DISCRIMINATOR
    · rw [unpack_of_tag buf (by omega) h2] at h
      have he := (Option.some_inj.1 h).symm
      subst he
      refine ⟨by omega, rfl, by simp [ENTITY_DISCRIMINATOR], ?_, ?_⟩
      · exact readSlice_length (by omega)
      · exact readSlice_length (by omega)
    · rw [(unpack_none_iff buf).2 (Or.inr h2)] at h; exact absurd h (by simp)

/-- Unpack after pack: the core of the round-trip property. -/
theorem unpack_after_pack (e : Entity) (data : List Nat) (hw : e.WF)
    (hdisc : e.discriminator = ENTITY_DISCRIMINATOR) :
    unpack (e.pack data) = some e := by
  obtain ⟨h8, _, hid, h32, _, _, h6, _⟩ := hw
  rw [pack_eq e data h8 h32 h6]
  have hFeq : packBytes e ++ data.drop 56 =
      e.discriminator ++ (toLeBytes 8 e.id ++ (e.owner ++
        ((if e.active then 1 else 0) :: (e.bump :: (e._reserved ++ data.drop 56))))) := by
    simp [packBytes]
  rw [hFeq]
  set F := e.discriminator ++ (toLeBytes 8 e.id ++ (e.owner ++
    ((if e.active then 1 else 0) :: (e.bump :: (e._reserved ++ data.drop 56))))) with hF
  have hlenF : F.length = 56 + (data.drop 56).length := by
    simp [hF, h8, h32, h6, toLeBytes_length]
    omega
  have hd8 : F.drop 8 = toLeBytes 8 e.id ++ (e.owner ++
      ((if e.active then 1 else 0) :: (e.bump :: (e._reserved ++ data.drop 56)))) :=
    List.drop_left' h8
  have hd16 : F.drop 16 = e.owner ++
      ((if e.active then 1 else 0) :: (e.bump :: (e._reserved ++ data.drop 56))) := by
    rw [show (16 : Nat) = 8 + 8 from rfl, ← List.drop_drop, hd8,
      List.drop_left' (toLeBytes_length 8 e.id)]
  have hd48 : F.drop 48 =
      (if e.active then 1 else 0) :: (e.bump :: (e._reserved ++ data.drop 56)) := by
    rw [show (48 : Nat) = 16 + 32 from rfl, ← List.drop_drop, hd16, List.drop_left' h32]
  have hd49 : F.drop 49 = e.bump :: (e._reserved ++ data.drop 56) := by
    rw [show (49 : Nat) = 48 + 1 from rfl, ← List.drop_drop, hd48]
    rfl
  have hd50 : F.drop 50 = e._reserved ++ data.drop 56 := by
    rw [show (50 : Nat) = 49 + 1 from rfl, ← List.drop_drop, hd49]
    rfl
  have hr0 : readSlice F 0 8 = ENTITY_DISCRIMINATOR := by
    rw [readSlice_zero_left, hF, List.take_left' h8, hdisc]
  rw [unpack_of_tag F (by omega) hr0]
  congr 1
  have hid8 : readSlice F 8 8 = toLeBytes 8 e.id := by
    rw [readSlice, hd8, List.take_left' (toLeBytes_length 8 e.id)]
  have hown : readSlice F 16 32 = e.owner := by
    rw [readSlice, hd16, List.take_left' h32]
  have hres : readSlice F 50 6 = e._reserved := by
    rw [readSlice, hd50, List.take_left' h6]
  have hg48 : F.getD 48 0 = (if e.active then 1 else 0) := by
    rw [getD_drop_zero, hd48]
    simp
  have hg49 : F.getD 49 0 = e.bump := by
    rw [getD_drop_zero, hd49]
    simp
  have hact : decide (F.getD 48 0 ≠ 0) = e.active := by
    rw [hg48]
    cases e.active <;> simp
  have h256 : e.id < 256 ^ 8 := by
    have h2 : (256 : Nat) ^ 8 = 2 ^ 64 := by norm_num
    rw [h2]
    exact hid
  rw [hid8, hown, hres, hact, hg49, fromLeBytes_toLeBytes 8 e.id h256, ← hdisc]

/-- Splitting a long-enough buffer around byte 48. -/
theorem decomp_48 (buf : List Nat) (h : 48 < buf.length) :
    buf = buf.take 48 ++ (buf.getD 48 0 :: buf.drop 49) := by
  conv_lhs => rw [← List.take_append_drop 48 buf]
  congr 1
  rw [List.drop_eq_getElem_cons h, ← List.getD_eq_getElem buf 0 h]

/-- Pack after unpack: bytes 0..48 and 49..56 are reproduced verbatim,
byte 48 is replaced by the normalized boolean. -/
theorem pack_unpack (buf : List Nat) (e : Entity)
    (hb : bytesWF buf) (h : unpack buf = some e) :
    e.pack buf = buf.take 48 ++ ((if buf.getD 48 0 ≠ 0 then 1 else 0) :: buf.drop 49) := by
  have h56 : 56 ≤ buf.length := (unpack_some_facts h).1
  have hd : readSlice buf 0 8 = ENTITY_DISCRIMINATOR := by
    by_contra h2
    rw [(unpack_none_iff buf).2 (Or.inr h2)] at h
    exact absurd h (by simp)
  have he : e = { discriminator := ENTITY_DISCRIMINATOR
                  id := fromLeBytes (readSlice buf 8 8)
                  owner := readSlice buf 16 32
                  active := decide (buf.getD 48 0 ≠ 0)
                  bump := buf.getD 49 0
                  _reserved := readSlice buf 50 6 } := by
    rw [unpack_of_tag buf h56 hd] at h
    exact (Option.some_inj.1 h).symm
  subst he
  have hs8len : (readSlice buf 8 8).length = 8 := readSlice_length (by omega)
  have hid : toLeBytes 8 (fromLeBytes (readSlice buf 8 8)) = readSlice buf 8 8 := by
    have ht := toLeBytes_fromLeBytes (readSlice buf 8 8) (bytesWF_readSlice 8 8 hb)
    rwa [hs8len] at ht
  rw [pack_eq _ _ (by simp [ENTITY_DISCRIMINATOR]) (readSlice_length (by omega))
    (readSlice_length (by omega))]
  simp only [packBytes, hid]
  have hrhs1 : buf.take 48 = buf.take 8 ++ ((buf.drop 8).take 8 ++ (buf.drop 16).take 32) := by
    rw [show (48 : Nat) = 8 + (8 + 32) from rfl, List.take_add, List.take_add, List.drop_drop]
  have hrhs2 : buf.drop 49 = buf.getD 49 0 :: ((buf.drop 50).take 6 ++ buf.drop 56) := by
    have h49 : 49 < buf.length := by omega
    rw [List.drop_eq_getElem_cons h49, ← List.getD_eq_getElem buf 0 h49]
    congr 1
    conv_lhs => rw [← List.take_append_drop 6 (buf.drop 50)]
    rw [List.drop_drop]
  rw [hrhs1, hrhs2, ← hd, readSlice_zero_left]
  simp [readSlice, List.append_assoc]

end Entity

theorem encodeField_length {k : FieldKind} {v : FieldVal} (h : ValWF k v) :
    (encodeField k v).length = k.size := by
  cases v with
  | scalar n => simp [encodeField, toLeBytes_length]
  | bool b => cases k <;> simp [ValWF] at h ; simp [encodeField, FieldKind.size]
  | bytes l =>
    cases k <;> simp [ValWF] at h <;> simp [encodeField, FieldKind.size, h.1]

theorem decodeField_encodeField {k : FieldKind} {v : FieldVal} (h : ValWF k v) :
    decodeField k (encodeField k v) = v := by
  cases v with
  | scalar n =>
    have hs := h
    cases k <;> simp [ValWF, FieldKind.isScalar] at hs <;>
      (simp only [encodeField, decodeField, FieldVal.scalar.injEq]
       refine fromLeBytes_toLeBytes _ n ?_
       simpa [FieldKind.size] using hs)
  | bool b => cases k <;> simp [ValWF] at h ; cases b <;> simp [encodeField, decodeField]
  | bytes l => cases k <;> simp [ValWF] at h <;> simp [encodeField, decodeField]

theorem encodeAll_length (pairs : List (FieldKind × FieldVal))
    (hwf : ∀ p ∈ pairs, ValWF p.1 p.2) :
    (encodeAll pairs).length = sizeFields (pairs.map Prod.fst) := by
  induction pairs with
  | nil => rfl
  | cons p rest ih =>
    obtain ⟨k, v⟩ := p
    simp only [encodeAll, sizeFields, List.map_cons, List.length_append]
    rw [encodeField_length (hwf (k, v) (by simp)), ih (fun q hq => hwf q (by simp [hq]))]

/-- The pack loop rewrites exactly its own window of the buffer. -/
theorem packFields_eq (pairs : List (FieldKind × FieldVal)) (off : Nat) (data : List Nat)
    (hwf : ∀ p ∈ pairs, ValWF p.1 p.2)
    (hlen : off + sizeFields (pairs.map Prod.fst) ≤ data.length) :
    packFields pairs off data =
      data.take off ++ (encodeAll pairs ++ data.drop (off + sizeFields (pairs.map Prod.fst))) := by
  induction pairs generalizing off data with
  | nil => simp [packFields, encodeAll, sizeFields]
  | cons p rest ih =>
    obtain ⟨k, v⟩ := p
    have hkv : ValWF k v := hwf (k, v) (by simp)
    have he : (encodeField k v).length = k.size := encodeField_length hkv
    simp only [List.map_cons, sizeFields] at hlen
    have hoffk : off + k.size ≤ data.length := by omega
    have hofflen : off ≤ data.length := by omega
    have htake : (data.take off).length = off := by simp; omega
    set e := encodeField k v with hee
    set d' := writeSlice data off e with hd'
    have hwd : d' = data.take off ++ (e ++ data.drop (off + k.size)) := by
      rw [hd', writeSlice, List.append_assoc, hee, he]
    have hd'len : d'.length = data.length := by
      rw [hd']
      exact writeSlice_length (by omega)
    have hdrop : d'.drop (off + k.size) = data.drop (off + k.size) := by
      rw [show off + k.size = (data.take off).length + (e.length) by rw [htake, he]]
      rw [hwd, List.drop_append, List.drop_left' rfl]
      rw [he, htake]
    have htk : d'.take (off + k.size) = data.take off ++ e := by
      rw [show off + k.size = (data.take off).length + (e.length) by rw [htake, he]]
      rw [hwd, List.take_add, List.take_left, List.drop_left, List.take_left]
    simp only [packFields]
    rw [ih (off + k.size) d' (fun q hq => hwf q (by simp [hq]))
      (by rw [hd'len]; omega)]
    rw [htk]
    have hdrop2 : d'.drop (off + k.size + sizeFields (rest.map Prod.fst)) =
        data.drop (off + (k.size + sizeFields (rest.map Prod.fst))) := by
      rw [← List.drop_drop, hdrop, List.drop_drop]
      rw [Nat.add_assoc]
    rw [hdrop2]
    simp [encodeAll, sizeFields, List.append_assoc]

/-- The unpack loop reads back exactly the fields the pack loop wrote. -/
theorem unpackFields_encodeAll (pairs : List (FieldKind × FieldVal))
    (pre rest : List Nat) (off : Nat) (hoff : off = pre.length)
    (hwf : ∀ p ∈ pairs, ValWF p.1 p.2) :
    unpackFields (pairs.map Prod.fst) off (pre ++ (encodeAll pairs ++ rest)) =
      pairs.map Prod.snd := by
  induction pairs generalizing pre off with
  | nil => simp [unpackFields]
  | cons p rest' ih =>
    obtain ⟨k, v⟩ := p
    have hkv : ValWF k v := hwf (k, v) (by simp)
    have he : (encodeField k v).length = k.size := encodeField_length hkv
    subst hoff
    simp only [List.map_cons, unpackFields, encodeAll]
    congr 1
    · rw [readSlice, List.drop_left' rfl, List.append_assoc, List.take_left' he]
      exact decodeField_encodeField hkv
    · have hassoc : pre ++ (encodeField k v ++ encodeAll rest' ++ rest) =
          (pre ++ encodeField k v) ++ (encodeAll rest' ++ rest) := by
        simp [List.append_assoc]
      rw [hassoc]
      exact ih (pre ++ encodeField k v) (pre.length + k.size)
        (by simp [he]) (fun q hq => hwf q (by simp [hq]))

/-- Round-trip for every macro-generated component implementation. -/
theorem Schema.unpack_pack (s : Schema) (vals : List FieldVal) (data : List Nat)
    (hdisc : s.disc.length = 8)
    (hwf : List.Forall₂ ValWF s.fields vals)
    (hlen : s.SIZE ≤ data.length) :
    s.unpack (s.pack vals data) = some vals := by
  have hlens : s.fields.length = vals.length := hwf.length_eq
  have hfst : (s.fields.zip vals).map Prod.fst = s.fields :=
    List.map_fst_zip s.fields vals (le_of_eq hlens)
  have hsnd : (s.fields.zip vals).map Prod.snd = vals :=
    List.map_snd_zip s.fields vals (ge_of_eq hlens)
  have hpairs : ∀ p ∈ s.fields.zip vals, ValWF p.1 p.2 := by
    intro p hp
    exact (List.forall₂_iff_zip.1 hwf).2 hp
  have hsz : 8 ≤ data.length := by
    have := hlen
    unfold Schema.SIZE at this
    omega
  have hd0 : writeSlice data 0 s.disc = s.disc ++ data.drop 8 := by
    rw [writeSlice_zero, hdisc]
  have hd0len : (s.disc ++ data.drop 8).length = data.length := by
    simp [hdisc]
    omega
  have hpacked : s.pack vals data =
      s.disc ++ (encodeAll (s.fields.zip vals) ++
        (s.disc ++ data.drop 8).drop (8 + sizeFields s.fields)) := by
    unfold Schema.pack
    rw [hd0, packFields_eq _ 8 _ hpairs (by rw [hfst, hd0len]; exact hlen)]
    rw [hfst, List.take_left' hdisc]
  have hencl : (encodeAll (s.fields.zip vals)).length = sizeFields s.fields := by
    rw [encodeAll_length _ hpairs, hfst]
  have hplen : (s.pack vals data).length =
      8 + sizeFields s.fields +
        ((s.disc ++ data.drop 8).drop (8 + sizeFields s.fields)).length := by
    rw [hpacked]
    simp [hdisc, hencl]
    omega
  unfold Schema.unpack
  rw [if_neg (by unfold Schema.SIZE; omega)]
  rw [if_neg (by
    rw [hpacked, readSlice_zero_left, List.take_left' hdisc]
    simp)]
  have hup := unpackFields_encodeAll (s.fields.zip vals) s.disc
    ((s.disc ++ data.drop 8).drop (8 + sizeFields s.fields)) 8 hdisc.symm hpairs
  rw [hfst, hsnd] at hup
  rw [hpacked, hup]

theorem string_to_discriminator_eq (s : List Nat) :
    string_to_discriminator s =
      s.take (min s.length 8) ++ List.replicate (8 - min s.length 8) 0 := by
  unfold string_to_discriminator
  rw [writeSlice_zero, List.length_take, List.drop_replicate]
  have hm : min (min s.length 8) s.length = min s.length 8 := by omega
  rw [hm]

theorem string_to_discriminator_short (s : List Nat) (h : s.length < 8) :
    string_to_discriminator s = s ++ List.replicate (8 - s.length) 0 := by
  rw [string_to_discriminator_eq, Nat.min_eq_left (by omega), List.take_length]

theorem string_to_discriminator_long (s : List Nat) (h : 8 ≤ s.length) :
    string_to_discriminator s = s.take 8 := by
  rw [string_to_discriminator_eq, Nat.min_eq_right h]
  simp

theorem string_to_discriminator_length (s : List Nat) :
    (string_to_discriminator s).length = 8 := by
  rw [string_to_discriminator_eq]
  simp

/-! ## Processor-level lemmas -/

theorem getD_set_self {α : Type} (l : List α) (i : Nat) (a d : α)
    (h : i < l.length) : (l.set i a).getD i d = a := by
  rw [List.getD_eq_getElem _ d (by simpa using h)]
  simp [List.getElem_set]

theorem getD_mem {l : List Nat} {n : Nat} (h : n < l.length) : l.getD n 0 ∈ l := by
  rw [List.getD_eq_getElem l 0 h]
  exact List.getElem_mem h

theorem Entity.pack_take8 (e : Entity) (data : List Nat)
    (h8 : e.discriminator.length = 8) (h32 : e.owner.length = 32)
    (h6 : e._reserved.length = 6) :
    (e.pack data).take 8 = e.discriminator := by
  rw [Entity.pack_eq e data h8 h32 h6]
  unfold Entity.packBytes
  rw [List.append_assoc, List.take_left' h8]

/-- A successful `unpack` of a true byte buffer yields a well-formed record. -/
theorem Entity.unpack_some_WF {buf : List Nat} {e : Entity}
    (hb : bytesWF buf) (h : Entity.unpack buf = some e) : e.WF := by
  obtain ⟨h56, hdisc, h8, h32, h6⟩ := Entity.unpack_some_facts h
  have hd : readSlice buf 0 8 = ENTITY_DISCRIMINATOR := by
    by_contra h2
    rw [(Entity.unpack_none_iff buf).2 (Or.inr h2)] at h
    exact absurd h (by simp)
  rw [Entity.unpack_of_tag buf h56 hd] at h
  have he := (Option.some_inj.1 h).symm
  subst he
  refine ⟨h8, by rw [hdisc]; decide, ?_, h32, bytesWF_readSlice 16 32 hb, ?_, h6,
    bytesWF_readSlice 50 6 hb⟩
  · have hlt := fromLeBytes_lt (readSlice buf 8 8) (bytesWF_readSlice 8 8 hb)
    rw [readSlice_length (by omega)] at hlt
    simpa [show (256 : Nat) ^ 8 = 2 ^ 64 by norm_num] using hlt
  · exact hb _ (getD_mem (by omega))

/-- The first eight bytes of the account a successful `create_entity`
writes are the entity discriminator. -/
theorem process_create_entity_ok_inv {fpa : Fpa} {rentMin : Nat → Nat}
    {programId : Pubkey} {accounts : List AccountInfo}
    {instructionData : List Nat} {accs : List AccountInfo}
    (hkey : (accounts.getD 0 default).key.length = 32)
    (h : process_create_entity fpa rentMin programId accounts instructionData =
      .ok accs) :
    (accounts.getD 1 default).data = [] ∧
      ∀ d, ((accs.getD 1 d).data).take 8 = ENTITY_DISCRIMINATOR := by
  simp only [process_create_entity] at h
  split at h
  · exact absurd h (by simp)
  · split at h
    · exact absurd h (by simp)
    · split at h
      · exact absurd h (by simp)
      · split at h
        · exact absurd h (by simp)
        · split at h
          · exact absurd h (by simp)
          · rename_i instruction hinstr hlen hsig hkeyok hempty
            split at h
            · exact absurd h (by simp)
            · rename_i payer2 entityAccount2 hca
              have haccs := Except.ok.inj h
              subst haccs
              constructor
              · simpa using hempty
              · intro d
                rw [getD_set_self (accounts.set 0 payer2) 1 _ d
                  (by simp; omega)]
                exact Entity.pack_take8 _ _
                  (by simp [Entity.new, ENTITY_DISCRIMINATOR])
                  (by simpa [Entity.new] using hkey)
                  (by simp [Entity.new])

/-- A successful `transfer_ownership` keeps the discriminator bytes. -/
theorem process_transfer_ownership_ok_inv {accounts : List AccountInfo}
    {instructionData : List Nat} {accs : List AccountInfo}
    (hthird : (accounts.getD 2 default).key.length = 32)
    (h : process_transfer_ownership accounts instructionData = .ok accs) :
    ∀ d, ((accs.getD 1 d).data).take 8 = ENTITY_DISCRIMINATOR := by
  simp only [process_transfer_ownership] at h
  split at h
  · exact absurd h (by simp)
  · split at h
    · exact absurd h (by simp)
    · split at h
      · exact absurd h (by simp)
      · split at h
        · exact absurd h (by simp)
        · split at h
          · exact absurd h (by simp)
          · split at h
            · exact absurd h (by simp)
            · split at h
              · exact absurd h (by simp)
              · rename_i t ht hlen hsig hwrit entity hent hown hact
                have haccs := Except.ok.inj h
                subst haccs
                intro d
                rw [getD_set_self accounts 1 _ d (by omega)]
                obtain ⟨-, hdisc, h8, h32, h6⟩ := Entity.unpack_some_facts hent
                have hp := Entity.pack_take8
                  { entity with owner := (accounts.getD 2 default).key }
                  (accounts.getD 1 default).data h8 (by simpa using hthird) h6
                simpa [hdisc] using hp

/-- A successful `deactivate_entity` is exactly a rewrite of account 1
with the unpacked entity, deactivated, packed back. -/
theorem process_deactivate_entity_ok {accounts : List AccountInfo}
    {instructionData : List Nat} {accs : List AccountInfo}
    (h : process_deactivate_entity accounts instructionData = .ok accs) :
    ∃ entity, Entity.unpack ((accounts.getD 1 default).data) = some entity ∧
      ¬ accounts.length < 2 ∧
      accs = accounts.set 1 { accounts.getD 1 default with
        data := ({ entity with active := false } : Entity).pack
          (accounts.getD 1 default).data } := by
  simp only [process_deactivate_entity] at h
  split at h
  · exact absurd h (by simp)
  · split at h
    · exact absurd h (by simp)
    · rename_i hlen
      split at h
      · exact absurd h (by simp)
      · split at h
        · exact absurd h (by simp)
        · split at h
          · exact absurd h (by simp)
          · rename_i entity hent
            split at h
            · exact absurd h (by simp)
            · exact ⟨entity, hent, hlen, (Except.ok.inj h).symm⟩

/-- Transfer on an inactive entity is rejected with `EntityNotActive`. -/
theorem process_transfer_ownership_inactive {accounts : List AccountInfo}
    {instructionData : List Nat} {t : TransferOwnershipInstruction}
    {entity : Entity}
    (ht : TransferOwnershipInstruction.unpack instructionData = some t)
    (hlen : ¬ accounts.length < 3)
    (hsig : (accounts.getD 0 default).isSigner = true)
    (hwrit : (accounts.getD 1 default).isWritable = true)
    (hent : Entity.unpack (accounts.getD 1 default).data = some entity)
    (hown : entity.owner = (accounts.getD 0 default).key)
    (hact : entity.active = false) :
    process_transfer_ownership accounts instructionData =
      .error (.Registry .EntityNotActive) := by
  simp only [List.getD_eq_getElem?_getD] at hsig hwrit hent hown
  simp [process_transfer_ownership, ht, hlen, hsig, hwrit, hent, hown, hact]

/-- Create on an account that already holds data is rejected with
`EntityAlreadyExists` (the emptiness check precedes the allocation). -/
theorem process_create_entity_existing {fpa : Fpa} {rentMin : Nat → Nat}
    {programId : Pubkey} {accounts : List AccountInfo}
    {instructionData : List Nat} {i : CreateEntityInstruction}
    (hi : CreateEntityInstruction.unpack instructionData = some i)
    (hlen : ¬ accounts.length < 3)
    (hsig : (accounts.getD 0 default).isSigner = true)
    (hkey : (accounts.getD 1 default).key =
      (fpa [ENTITY_SEED, toLeBytes 8 i.entity_id] programId).1)
    (hne : (accounts.getD 1 default).data ≠ []) :
    process_create_entity fpa rentMin programId accounts instructionData =
      .error (.Registry .EntityAlreadyExists) := by
  simp only [List.getD_eq_getElem?_getD] at hsig hkey hne
  simp [process_create_entity, hi, hlen, hsig, hkey, hne]

/-- The lifecycle helper forwards a non-empty target straight to the
platform allocation, which fails it wholesale. -/
theorem init_component_account_nonempty {rentMin : Nat → Nat} {sz : Nat}
    {disc : List Nat} {payer account : AccountInfo} {programId : Pubkey}
    (h : account.data ≠ []) :
    init_component_account rentMin sz disc payer account programId =
      .error .AllocationFailed := by
  have hlen : account.data.length ≠ 0 := by
    simpa [List.length_eq_zero] using h
  simp [init_component_account, createAccount, hlen]

theorem drop_append_len {A B : List Nat} {n m : Nat} (h : A.length = n) :
    (A ++ B).drop (n + m) = B.drop m := by
  subst h
  rw [List.drop_append]

theorem getD_drop (l : List Nat) (n m : Nat) :
    (l.drop n).getD m 0 = l.getD (n + m) 0 := by
  rw [getD_drop_zero, List.drop_drop, ← getD_drop_zero]

theorem getD_append_ge {P T : List Nat} {n i : Nat} (hP : P.length = n)
    (hi : n ≤ i) : (P ++ T).getD i 0 = T.getD (i - n) 0 := by
  have hdrop : (P ++ T).drop i = T.drop (i - n) := by
    have h2 : (P ++ T).drop (P.length + (i - n)) = T.drop (i - n) := by
      rw [List.drop_append]
    rw [show P.length + (i - n) = i by omega] at h2
    exact h2
  rw [getD_drop_zero, hdrop, ← getD_drop_zero]

/-- The packed generic component as one concatenation. -/
theorem Schema.pack_eq_concat (s : Schema) (vals : List FieldVal)
    (data : List Nat) (hdisc : s.disc.length = 8)
    (hwf : List.Forall₂ ValWF s.fields vals) (hlen : s.SIZE ≤ data.length) :
    s.pack vals data =
      s.disc ++ (encodeAll (s.fields.zip vals) ++ data.drop s.SIZE) := by
  have hlens : s.fields.length = vals.length := hwf.length_eq
  have hfst : (s.fields.zip vals).map Prod.fst = s.fields :=
    List.map_fst_zip s.fields vals (le_of_eq hlens)
  have hpairs : ∀ p ∈ s.fields.zip vals, ValWF p.1 p.2 := by
    intro p hp
    exact (List.forall₂_iff_zip.1 hwf).2 hp
  have hsz : 8 ≤ data.length := by
    have := hlen
    unfold Schema.SIZE at this
    omega
  have hd0 : writeSlice data 0 s.disc = s.disc ++ data.drop 8 := by
    rw [writeSlice_zero, hdisc]
  have hd0len : (s.disc ++ data.drop 8).length = data.length := by
    simp [hdisc]
    omega
  unfold Schema.pack
  rw [hd0, packFields_eq _ 8 _ hpairs (by rw [hfst, hd0len]; exact hlen)]
  rw [hfst, List.take_left' hdisc, drop_append_len hdisc, List.drop_drop]
  rfl

theorem Schema.unpack_eq_none_iff (s : Schema) (data : List Nat) :
    s.unpack data = none ↔
      data.length < s.SIZE ∨ readSlice data 0 8 ≠ s.disc := by
  unfold Schema.unpack
  by_cases h1 : data.length < s.SIZE <;>
    by_cases h2 : readSlice data 0 8 = s.disc <;> simp [h1, h2]

/-- A successful deactivate keeps the discriminator bytes. -/
theorem process_deactivate_entity_ok_inv {accounts : List AccountInfo}
    {instructionData : List Nat} {accs : List AccountInfo}
    (h : process_deactivate_entity accounts instructionData = .ok accs) :
    ∀ d, ((accs.getD 1 d).data).take 8 = ENTITY_DISCRIMINATOR := by
  obtain ⟨entity, hent, hlen, haccs⟩ := process_deactivate_entity_ok h
  subst haccs
  intro d
  rw [getD_set_self accounts 1 _ d (by omega)]
  obtain ⟨-, hdisc, h8, h32, h6⟩ := Entity.unpack_some_facts hent
  have hp := Entity.pack_take8 { entity with active := false }
    (accounts.getD 1 default).data h8 h32 h6
  simpa [hdisc] using hp

/-- Any single registry instruction preserves the discriminator
invariant of the entity account. -/
theorem stepEntity_preserves {fpa : Fpa} {rentMin : Nat → Nat}
    {programId : Pubkey} {e : AccountInfo} {c : OpCtx}
    (hc : CtxWF c) (hinv : entityInv e) :
    entityInv (stepEntity fpa rentMin programId e c) := by
  unfold stepEntity
  split
  · rename_i accs hok
    unfold process_instruction at hok
    split at hok
    · exact absurd hok (by simp)
    · split at hok
      · exact process_create_entity_ok_inv (by simpa using hc.1) hok |>.2 e
      · exact process_transfer_ownership_ok_inv (by simpa using hc.2) hok e
      · exact process_deactivate_entity_ok_inv hok e
      · exact absurd hok (by simp)
  · exact hinv

/-- Under the path's preconditions, deactivate succeeds, whatever the
current `active` flag, and stores the deactivated record. -/
theorem process_deactivate_entity_succeeds {accounts : List AccountInfo}
    {instructionData : List Nat} {t : DeactivateEntityInstruction}
    {entity : Entity}
    (ht : DeactivateEntityInstruction.unpack instructionData = some t)
    (hlen : ¬ accounts.length < 2)
    (hsig : (accounts.getD 0 default).isSigner = true)
    (hwrit : (accounts.getD 1 default).isWritable = true)
    (hent : Entity.unpack (accounts.getD 1 default).data = some entity)
    (hown : entity.owner = (accounts.getD 0 default).key) :
    process_deactivate_entity accounts instructionData =
      .ok (accounts.set 1 { accounts.getD 1 default with
        data := ({ entity with active := false } : Entity).pack
          (accounts.getD 1 default).data }) := by
  simp only [List.getD_eq_getElem?_getD] at hsig hwrit hent hown ⊢
  simp [process_deactivate_entity, ht, hlen, hsig, hwrit, hent, hown]

/-! ## The claims -/

/-- C1: packing an `Entity` record whose discriminator field equals
`ENTITY_DISCRIMINATOR` into a buffer of at least 56 bytes and unpacking
that buffer returns the record field-for-field; the same round-trip holds
for every macro-generated component implementation over buffers of at
least `Component::SIZE` bytes (field values well-formed for their
declared kinds, as Rust's types guarantee). -/
theorem c1_pack_unpack_roundtrip :
    (∀ (e : Entity) (data : List Nat), e.WF →
      e.discriminator = ENTITY_DISCRIMINATOR → 56 ≤ data.length →
      Entity.unpack (e.pack data) = some e) ∧
    (∀ (s : Schema) (vals : List FieldVal) (data : List Nat),
      s.disc.length = 8 → List.Forall₂ ValWF s.fields vals →
      s.SIZE ≤ data.length → s.unpack (s.pack vals data) = some vals) := by
  constructor
  · intro e data hw hd _
    exact Entity.unpack_after_pack e data hw hd
  · intro s vals data h1 h2 h3
    exact Schema.unpack_pack s vals data h1 h2 h3

/-- C1 witness: a concrete `Entity` and a concrete health-like component
(`entity: Pubkey, current: u32, max: u32, bump: u8`, seed `"health"`)
round-trip. -/
theorem c1_pack_unpack_roundtrip_witness :
    Entity.unpack ((Entity.new 42 (List.replicate 32 1) 254).pack
      (List.replicate 56 0)) =
        some (Entity.new 42 (List.replicate 32 1) 254) ∧
    (Schema.mk [104, 101, 97, 108, 116, 104, 0, 0]
        [.pubkey, .u32, .u32, .u8]).unpack
      ((Schema.mk [104, 101, 97, 108, 116, 104, 0, 0]
          [.pubkey, .u32, .u32, .u8]).pack
        [.bytes (List.replicate 32 1), .scalar 80, .scalar 100, .scalar 7]
        (List.replicate 49 0)) =
      some [.bytes (List.replicate 32 1), .scalar 80, .scalar 100,
        .scalar 7] := by
  constructor
  · exact c1_pack_unpack_roundtrip.1 _ _ (by decide) (by decide) (by decide)
  · refine c1_pack_unpack_roundtrip.2 _ _ _ (by decide) ?_ (by decide)
    refine List.Forall₂.cons ⟨by decide, by decide⟩ ?_
    refine List.Forall₂.cons ⟨by decide, by decide⟩ ?_
    refine List.Forall₂.cons ⟨by decide, by decide⟩ ?_
    exact List.Forall₂.cons ⟨by decide, by decide⟩ List.Forall₂.nil

/-- C2 counterexample: the code's `unpack` returns `Option`, not a tagged
error — a 55-byte buffer (too short) and a 56-byte buffer with a wrong
discriminator produce the very same `none`, so the two failure causes are
not distinguished by any tag. -/
theorem c2_counterexample :
    Entity.unpack (List.replicate 55 0) = Entity.unpack (List.replicate 56 1) ∧
    Entity.unpack (List.replicate 55 0) = none := by
  exact ⟨by decide, by decide⟩

/-- C2 (amended): decode failure is the single untagged `none`, and it
happens exactly when the buffer is shorter than the schema's size or its
first 8 bytes differ from the discriminator; in particular every buffer
of length ≥ the size whose first 8 bytes differ fails regardless of the
remaining contents — for the registry `Entity` and for every
macro-generated component. -/
theorem c2_failure_semantics :
    (∀ data : List Nat, Entity.unpack data = none ↔
      data.length < 56 ∨ readSlice data 0 8 ≠ ENTITY_DISCRIMINATOR) ∧
    (∀ (s : Schema) (data : List Nat), s.unpack data = none ↔
      data.length < s.SIZE ∨ readSlice data 0 8 ≠ s.disc) :=
  ⟨Entity.unpack_none_iff, Schema.unpack_eq_none_iff⟩

/-- C2 witness: a 56-byte buffer with a wrong tag fails. -/
theorem c2_failure_semantics_witness :
    Entity.unpack (List.replicate 56 7) = none :=
  (c2_failure_semantics.1 (List.replicate 56 7)).2 (Or.inr (by decide))

/-- C4: `Entity::SIZE` is 56 and every buffer shorter than 56 bytes fails
to unpack, even when its available bytes start with the discriminator
(the failure is the code's untagged `none`; the length test is the first
check in `unpack`). -/
theorem c4_size_and_length_gate :
    Entity.SIZE = 56 ∧
    ∀ data : List Nat, data.length < 56 → Entity.unpack data = none :=
  ⟨rfl, fun data h => (Entity.unpack_none_iff data).2 (Or.inl h)⟩

/-- C4 witness: a 55-byte buffer that starts with the discriminator. -/
theorem c4_size_and_length_gate_witness :
    Entity.unpack (ENTITY_DISCRIMINATOR ++ List.replicate 47 0) = none :=
  c4_size_and_length_gate.2 _ (by decide)

/-- C5: `string_to_discriminator` is a pure total function: seeds under 8
bytes are copied and right-padded with zeros, seeds of 8 or more bytes
are truncated to their first 8 bytes, and `ENTITY_DISCRIMINATOR` is
exactly the discriminator of `"entity"` — the 6 ASCII bytes of "entity"
followed by two zeros. -/
theorem c5_discriminator_of :
    (∀ s : List Nat, s.length < 8 →
      string_to_discriminator s = s ++ List.replicate (8 - s.length) 0) ∧
    (∀ s : List Nat, 8 ≤ s.length → string_to_discriminator s = s.take 8) ∧
    ENTITY_DISCRIMINATOR = string_to_discriminator ENTITY_SEED ∧
    ENTITY_DISCRIMINATOR = [0x65, 0x6e, 0x74, 0x69, 0x74, 0x79, 0x00, 0x00] :=
  ⟨string_to_discriminator_short, string_to_discriminator_long, by decide, rfl⟩

/-- C5 witness: the "entity" seed is zero-padded; a 9-byte seed is
truncated. -/
theorem c5_discriminator_of_witness :
    string_to_discriminator ENTITY_SEED = ENTITY_SEED ++ List.replicate 2 0 ∧
    string_to_discriminator [1, 2, 3, 4, 5, 6, 7, 8, 9] =
      [1, 2, 3, 4, 5, 6, 7, 8] := by
  constructor
  · exact c5_discriminator_of.1 ENTITY_SEED (by decide)
  · exact c5_discriminator_of.2.1 [1, 2, 3, 4, 5, 6, 7, 8, 9] (by decide)

/-- C3 counterexample: the generic lifecycle helper
(`init_component_account`) performs no emptiness check of its own — on an
account already holding a 56-byte discriminator-tagged record it fails
with the platform's wholesale `AllocationFailed`, not with the
`AlreadyInitialized`-class error the claim asserts. -/
theorem c3_counterexample :
    init_component_account (fun _ => 5) 56 ENTITY_DISCRIMINATOR
      { key := List.replicate 32 1, lamports := 100, data := [],
        owner := List.replicate 32 0, isSigner := true, isWritable := true }
      { key := List.replicate 32 9, lamports := 2,
        data := ENTITY_DISCRIMINATOR ++ List.replicate 48 0,
        owner := List.replicate 32 0, isSigner := false, isWritable := true }
      (List.replicate 32 3) = .error .AllocationFailed ∧
    ProgramError.AllocationFailed ≠
      ProgramError.Golt GoltError.AlreadyInitialized :=
  ⟨by decide, by decide⟩

/-- C3 (amended): in the registry's create-entity path the emptiness
check precedes any allocation or write and rejects an initialized account
with `EntityAlreadyExists` — the error path produces no new account
state, so data and balance are untouched; the generic lifecycle helper,
however, has no emptiness check of its own: a non-empty target makes the
platform allocation itself fail wholesale (`AllocationFailed`). -/
theorem c3_already_initialized :
    (∀ (fpa : Fpa) (rentMin : Nat → Nat) (programId : Pubkey)
        (accounts : List AccountInfo) (instructionData : List Nat)
        (i : CreateEntityInstruction),
      CreateEntityInstruction.unpack instructionData = some i →
      ¬ accounts.length < 3 →
      (accounts.getD 0 default).isSigner = true →
      (accounts.getD 1 default).key =
        (fpa [ENTITY_SEED, toLeBytes 8 i.entity_id] programId).1 →
      (accounts.getD 1 default).data ≠ [] →
      process_create_entity fpa rentMin programId accounts instructionData =
        .error (.Registry .EntityAlreadyExists)) ∧
    (∀ (rentMin : Nat → Nat) (sz : Nat) (disc : List Nat)
        (payer account : AccountInfo) (programId : Pubkey),
      account.data ≠ [] →
      init_component_account rentMin sz disc payer account programId =
        .error .AllocationFailed) := by
  constructor
  · intro fpa rentMin programId accounts instructionData i hi hlen hsig hkey hne
    exact process_create_entity_existing hi hlen hsig hkey hne
  · intro rentMin sz disc payer account programId hne
    exact init_component_account_nonempty hne

/-- C3 witness: Scenario D — create on an account already holding a
56-byte discriminator-tagged record fails `EntityAlreadyExists`; the
helper on the same account fails `AllocationFailed`. -/
theorem c3_already_initialized_witness :
    process_create_entity (fun _ _ => (List.replicate 32 9, 254))
      (fun _ => 5) (List.replicate 32 3)
      [{ key := List.replicate 32 1, lamports := 100, data := [],
         owner := List.replicate 32 0, isSigner := true, isWritable := true },
       { key := List.replicate 32 9, lamports := 2,
         data := ENTITY_DISCRIMINATOR ++ List.replicate 48 0,
         owner := List.replicate 32 0, isSigner := false, isWritable := true },
       { key := List.replicate 32 7, lamports := 0, data := [],
         owner := List.replicate 32 0, isSigner := false,
         isWritable := false }]
      (0 :: toLeBytes 8 42) = .error (.Registry .EntityAlreadyExists) ∧
    init_component_account (fun _ => 5) 56 ENTITY_DISCRIMINATOR
      { key := List.replicate 32 1, lamports := 100, data := [],
        owner := List.replicate 32 0, isSigner := true, isWritable := true }
      { key := List.replicate 32 9, lamports := 2,
        data := ENTITY_DISCRIMINATOR ++ List.replicate 48 0,
        owner := List.replicate 32 0, isSigner := false, isWritable := true }
      (List.replicate 32 4) = .error .AllocationFailed := by
  constructor
  · exact c3_already_initialized.1 _ _ _ _ _ ⟨0, 42⟩ (by decide) (by decide)
      (by decide) (by decide) (by decide)
  · exact c3_already_initialized.2 _ _ _ _ _ _ (by decide)

/-- C6: a successful create writes the entity discriminator into bytes
0..8 of the account, and every sequence of registry instructions (the
surrounding accounts carrying 32-byte keys, as Rust's `Pubkey` type
guarantees) preserves that prefix on the entity account: no successful
operation ever changes bytes 0..8 away from the discriminator. -/
theorem c6_discriminator_invariant :
    (∀ (fpa : Fpa) (rentMin : Nat → Nat) (programId : Pubkey)
        (accounts accs : List AccountInfo) (instructionData : List Nat),
      (accounts.getD 0 default).key.length = 32 →
      process_create_entity fpa rentMin programId accounts instructionData =
        .ok accs →
      entityInv (accs.getD 1 default)) ∧
    (∀ (fpa : Fpa) (rentMin : Nat → Nat) (programId : Pubkey)
        (e : AccountInfo) (ctxs : List OpCtx),
      (∀ c ∈ ctxs, CtxWF c) → entityInv e →
      entityInv (ctxs.foldl (stepEntity fpa rentMin programId) e)) := by
  constructor
  · intro fpa rentMin programId accounts accs instructionData hkey hok
    exact (process_create_entity_ok_inv hkey hok).2 default
  · intro fpa rentMin programId e ctxs
    induction ctxs generalizing e with
    | nil => exact fun _ hinv => hinv
    | cons c rest ih =>
      intro hwf hinv
      simp only [List.foldl_cons]
      exact ih (stepEntity fpa rentMin programId e c)
        (fun c2 hc2 => hwf c2 (by simp [hc2]))
        (stepEntity_preserves (hwf c (by simp)) hinv)

/-- C6 witness: the account created by a concrete `create_entity` call
carries the discriminator prefix, and it still carries it after a
transfer-ownership and a deactivate instruction. -/
theorem c6_discriminator_invariant_witness :
    entityInv
      (((process_create_entity (fun _ _ => (List.replicate 32 9, 254))
          (fun _ => 5) (List.replicate 32 3)
          [{ key := List.replicate 32 1, lamports := 100, data := [],
             owner := List.replicate 32 0, isSigner := true,
             isWritable := true },
           { key := List.replicate 32 9, lamports := 0, data := [],
             owner := List.replicate 32 0, isSigner := false,
             isWritable := true },
           { key := List.replicate 32 7, lamports := 0, data := [],
             owner := List.replicate 32 0, isSigner := false,
             isWritable := false }]
          (0 :: toLeBytes 8 42)).toOption.getD []).getD 1 default) ∧
    entityInv
      (([⟨{ key := List.replicate 32 1, lamports := 100, data := [],
            owner := List.replicate 32 0, isSigner := true,
            isWritable := true },
          { key := List.replicate 32 2, lamports := 0, data := [],
            owner := List.replicate 32 0, isSigner := false,
            isWritable := false }, [1]⟩,
        ⟨{ key := List.replicate 32 2, lamports := 0, data := [],
            owner := List.replicate 32 0, isSigner := true,
            isWritable := true },
          { key := List.replicate 32 0, lamports := 0, data := [],
            owner := List.replicate 32 0, isSigner := false,
            isWritable := false }, [2]⟩] : List OpCtx).foldl
        (stepEntity (fun _ _ => (List.replicate 32 9, 254)) (fun _ => 5)
          (List.replicate 32 3))
        { key := List.replicate 32 9, lamports := 5,
          data := (Entity.new 42 (List.replicate 32 1) 254).pack
            (List.replicate 56 0),
          owner := List.replicate 32 3, isSigner := false,
          isWritable := true }) := by
  constructor
  · refine c6_discriminator_invariant.1
      (fun _ _ => (List.replicate 32 9, 254)) (fun _ => 5)
      (List.replicate 32 3)
      [{ key := List.replicate 32 1, lamports := 100, data := [],
         owner := List.replicate 32 0, isSigner := true,
         isWritable := true },
       { key := List.replicate 32 9, lamports := 0, data := [],
         owner := List.replicate 32 0, isSigner := false,
         isWritable := true },
       { key := List.replicate 32 7, lamports := 0, data := [],
         owner := List.replicate 32 0, isSigner := false,
         isWritable := false }] _ (0 :: toLeBytes 8 42) ?_ ?_
    · decide
    · decide
  · refine c6_discriminator_invariant.2 _ _ _ _ _ ?_ ?_
    · decide
    · decide

/-- C7: `pack` writes exactly bytes `0..SIZE` of the destination: the
buffer keeps its length and every byte at an index ≥ SIZE holds the same
value after the call — for the registry `Entity` (SIZE = 56) and for
every macro-generated component (SIZE = `Schema.SIZE`). -/
theorem c7_pack_frame :
    (∀ (e : Entity) (data : List Nat), e.WF → 56 ≤ data.length →
      (e.pack data).length = data.length ∧
      ∀ i, 56 ≤ i → (e.pack data).getD i 0 = data.getD i 0) ∧
    (∀ (s : Schema) (vals : List FieldVal) (data : List Nat),
      s.disc.length = 8 → List.Forall₂ ValWF s.fields vals →
      s.SIZE ≤ data.length →
      (s.pack vals data).length = data.length ∧
      ∀ i, s.SIZE ≤ i → (s.pack vals data).getD i 0 = data.getD i 0) := by
  constructor
  · intro e data hw hd
    obtain ⟨h8, -, -, h32, -, -, h6, -⟩ := hw
    have hP : (Entity.packBytes e).length = 56 :=
      Entity.packBytes_length e h8 h32 h6
    rw [Entity.pack_eq e data h8 h32 h6]
    constructor
    · simp [hP]
      omega
    · intro i hi
      rw [getD_append_ge hP hi, getD_drop,
        show 56 + (i - 56) = i by omega]
  · intro s vals data hdisc hwf hlen
    have hlens : s.fields.length = vals.length := hwf.length_eq
    have hfst : (s.fields.zip vals).map Prod.fst = s.fields :=
      List.map_fst_zip s.fields vals (le_of_eq hlens)
    have hpairs : ∀ p ∈ s.fields.zip vals, ValWF p.1 p.2 := by
      intro p hp
      exact (List.forall₂_iff_zip.1 hwf).2 hp
    have hencl : (encodeAll (s.fields.zip vals)).length =
        sizeFields s.fields := by
      rw [encodeAll_length _ hpairs, hfst]
    have hP : (s.disc ++ encodeAll (s.fields.zip vals)).length = s.SIZE := by
      simp [hdisc, hencl, Schema.SIZE]
    rw [Schema.pack_eq_concat s vals data hdisc hwf hlen, ← List.append_assoc]
    constructor
    · simp [hdisc, hencl, Schema.SIZE]
      unfold Schema.SIZE at hlen
      omega
    · intro i hi
      rw [getD_append_ge hP hi, getD_drop,
        show s.SIZE + (i - s.SIZE) = i by omega]

/-- C7 witness: byte 57 of a 60-byte buffer survives an `Entity` pack and
byte 50 of a 52-byte buffer survives a small component pack. -/
theorem c7_pack_frame_witness :
    ((Entity.new 42 (List.replicate 32 1) 254).pack
        (List.replicate 60 3)).getD 57 0 = (List.replicate 60 3).getD 57 0 ∧
    ((Schema.mk [1, 2, 3, 4, 5, 6, 7, 8] [.u64]).pack [.scalar 77]
        (List.replicate 52 9)).getD 50 0 = (List.replicate 52 9).getD 50 0 := by
  constructor
  · exact (c7_pack_frame.1 _ _ (by decide) (by decide)).2 57 (by decide)
  · refine (c7_pack_frame.2 (Schema.mk [1, 2, 3, 4, 5, 6, 7, 8] [.u64])
      [.scalar 77] (List.replicate 52 9) (by decide) ?_ (by decide)).2 50
      (by decide)
    exact List.Forall₂.cons ⟨by decide, by decide⟩ List.Forall₂.nil

/-- C8: `verify_pda` always recomputes the canonical address through
`derive_pda` and compares — it returns `Ok bump` exactly when the
supplied key equals the recomputed address (with the recomputed bump),
and `InvalidPda` for every other key; it takes no caller-supplied bump at
all. -/
theorem c8_verify_pda :
    ∀ (fpa : Fpa) (accountKey : Pubkey) (seeds : List (List Nat))
      (programId : Pubkey),
      (∀ b, verify_pda fpa accountKey seeds programId = .ok b ↔
        accountKey = (derive_pda fpa seeds programId).1 ∧
        b = (derive_pda fpa seeds programId).2) ∧
      (accountKey ≠ (derive_pda fpa seeds programId).1 →
        verify_pda fpa accountKey seeds programId = .error .InvalidPda) := by
  intro fpa accountKey seeds programId
  constructor
  · intro b
    unfold verify_pda
    by_cases h : accountKey = (derive_pda fpa seeds programId).1 <;>
      simp [h, eq_comm]
  · intro hne
    unfold verify_pda
    simp [hne]

/-- C8 witness: with a concrete address-derivation primitive, the
canonical key verifies to the canonical bump and any other key is
rejected. -/
theorem c8_verify_pda_witness :
    verify_pda (fun _ _ => (List.replicate 32 9, 7)) (List.replicate 32 9)
      [[1]] [] = .ok 7 ∧
    verify_pda (fun _ _ => (List.replicate 32 9, 7)) (List.replicate 32 8)
      [[1]] [] = .error .InvalidPda := by
  constructor
  · exact ((c8_verify_pda _ _ _ _).1 7).2 ⟨by decide, by decide⟩
  · exact (c8_verify_pda _ _ _ _).2 (by decide)

/-- C9: stored `Entity` buffers are not canonical in the boolean byte:
for every byte buffer of length ≥ 56 whose first 8 bytes equal the
discriminator, unpack succeeds and packing the result reproduces bytes
0..56 except byte 48, which is normalized to 1 if it was nonzero and 0
otherwise — so pack-after-unpack returns the original buffer exactly when
byte 48 is already 0 or 1. -/
theorem c9_unpack_after_pack_normalization :
    ∀ buf : List Nat, bytesWF buf → 56 ≤ buf.length →
      buf.take 8 = ENTITY_DISCRIMINATOR →
      ∃ e, Entity.unpack buf = some e ∧
        e.pack buf = buf.take 48 ++
          ((if buf.getD 48 0 ≠ 0 then 1 else 0) :: buf.drop 49) ∧
        (e.pack buf = buf ↔ buf.getD 48 0 = 0 ∨ buf.getD 48 0 = 1) := by
  intro buf hb h56 htag
  have hdiscr : readSlice buf 0 8 = ENTITY_DISCRIMINATOR := by
    rw [readSlice_zero_left]
    exact htag
  obtain ⟨e, he⟩ : ∃ e, Entity.unpack buf = some e :=
    ⟨_, Entity.unpack_of_tag buf h56 hdiscr⟩
  have hmain := Entity.pack_unpack buf e hb he
  refine ⟨e, he, hmain, ?_⟩
  have hdec := Entity.decomp_48 buf (by omega)
  constructor
  · intro hp
    rw [hmain] at hp
    conv_rhs at hp => rw [hdec]
    have hx := List.cons.inj ((List.append_right_inj _).mp hp)
    by_cases h0 : buf.getD 48 0 = 0
    · exact Or.inl h0
    · right
      rw [if_pos h0] at hx
      exact hx.1.symm
  · intro h01
    rw [hmain]
    conv_rhs => rw [hdec]
    rcases h01 with h0 | h1
    · rw [h0]
      simp
    · rw [h1]
      simp

/-- C9 witness: a buffer with 1 at byte 48 round-trips to itself; with 5
at byte 48 it comes back normalized to 1. -/
theorem c9_unpack_after_pack_normalization_witness :
    (∃ e, Entity.unpack (ENTITY_DISCRIMINATOR ++ List.replicate 48 1) =
        some e ∧
      e.pack (ENTITY_DISCRIMINATOR ++ List.replicate 48 1) =
        (ENTITY_DISCRIMINATOR ++ List.replicate 48 1).take 48 ++
          ((if (ENTITY_DISCRIMINATOR ++
              List.replicate 48 1).getD 48 0 ≠ 0 then 1 else 0) ::
            (ENTITY_DISCRIMINATOR ++ List.replicate 48 1).drop 49) ∧
      (e.pack (ENTITY_DISCRIMINATOR ++ List.replicate 48 1) =
          ENTITY_DISCRIMINATOR ++ List.replicate 48 1 ↔
        (ENTITY_DISCRIMINATOR ++ List.replicate 48 1).getD 48 0 = 0 ∨
        (ENTITY_DISCRIMINATOR ++ List.replicate 48 1).getD 48 0 = 1)) :=
  c9_unpack_after_pack_normalization (ENTITY_DISCRIMINATOR ++ List.replicate 48 1)
    (by decide) (by decide) (by decide)

/-- C10: on the transfer path, a stored entity whose active flag is false
is rejected with `EntityNotActive` (the error path produces no new
account state, so the data is unchanged); the deactivate path has no
active precondition — under the same account checks it succeeds even on
an already-inactive entity and the stored record decodes with
`active = false` (deactivation is idempotent). -/
theorem c10_inactive_semantics :
    (∀ (accounts : List AccountInfo) (instructionData : List Nat)
        (t : TransferOwnershipInstruction) (entity : Entity),
      TransferOwnershipInstruction.unpack instructionData = some t →
      ¬ accounts.length < 3 →
      (accounts.getD 0 default).isSigner = true →
      (accounts.getD 1 default).isWritable = true →
      Entity.unpack (accounts.getD 1 default).data = some entity →
      entity.owner = (accounts.getD 0 default).key →
      entity.active = false →
      process_transfer_ownership accounts instructionData =
        .error (.Registry .EntityNotActive)) ∧
    (∀ (accounts : List AccountInfo) (instructionData : List Nat)
        (t : DeactivateEntityInstruction) (entity : Entity),
      DeactivateEntityInstruction.unpack instructionData = some t →
      ¬ accounts.length < 2 →
      (accounts.getD 0 default).isSigner = true →
      (accounts.getD 1 default).isWritable = true →
      bytesWF (accounts.getD 1 default).data →
      Entity.unpack (accounts.getD 1 default).data = some entity →
      entity.owner = (accounts.getD 0 default).key →
      ∃ accs, process_deactivate_entity accounts instructionData = .ok accs ∧
        Entity.unpack ((accs.getD 1 default).data) =
          some { entity with active := false }) := by
  constructor
  · intro accounts instructionData t entity ht hlen hsig hwrit hent hown hact
    exact process_transfer_ownership_inactive ht hlen hsig hwrit hent hown hact
  · intro accounts instructionData t entity ht hlen hsig hwrit hb hent hown
    refine ⟨_, process_deactivate_entity_succeeds ht hlen hsig hwrit hent hown,
      ?_⟩
    rw [getD_set_self accounts 1 _ default (by omega)]
    have hWF : Entity.WF { entity with active := false } := by
      have h := Entity.unpack_some_WF hb hent
      unfold Entity.WF at h ⊢
      simpa using h
    have hdisc : ({ entity with active := false } : Entity).discriminator =
        ENTITY_DISCRIMINATOR := by
      simpa using (Entity.unpack_some_facts hent).2.1
    exact Entity.unpack_after_pack _ _ hWF hdisc

set_option maxRecDepth 100000 in
/-- C10 witness: a concrete inactive entity — transfer fails
`EntityNotActive`; deactivating it again succeeds and it decodes
inactive. -/
theorem c10_inactive_semantics_witness :
    process_transfer_ownership
      [{ key := List.replicate 32 1, lamports := 100, data := [],
         owner := List.replicate 32 0, isSigner := true, isWritable := true },
       { key := List.replicate 32 9, lamports := 5,
         data := ({ Entity.new 42 (List.replicate 32 1) 254 with
           active := false } : Entity).pack (List.replicate 56 0),
         owner := List.replicate 32 3, isSigner := false,
         isWritable := true },
       { key := List.replicate 32 2, lamports := 0, data := [],
         owner := List.replicate 32 0, isSigner := false,
         isWritable := false }] [1] =
      .error (.Registry .EntityNotActive) ∧
    (∃ accs, process_deactivate_entity
      [{ key := List.replicate 32 1, lamports := 100, data := [],
         owner := List.replicate 32 0, isSigner := true, isWritable := true },
       { key := List.replicate 32 9, lamports := 5,
         data := ({ Entity.new 42 (List.replicate 32 1) 254 with
           active := false } : Entity).pack (List.replicate 56 0),
         owner := List.replicate 32 3, isSigner := false,
         isWritable := true }] [2] = .ok accs ∧
      Entity.unpack ((accs.getD 1 default).data) =
        some { Entity.new 42 (List.replicate 32 1) 254 with
          active := false }) := by
  constructor
  · exact c10_inactive_semantics.1 _ _ ⟨1⟩
      { Entity.new 42 (List.replicate 32 1) 254 with active := false }
      (by decide) (by decide) (by decide) (by decide) (by decide) (by decide)
      (by decide)
  · exact c10_inactive_semantics.2 _ _ ⟨2⟩
      { Entity.new 42 (List.replicate 32 1) 254 with active := false }
      (by decide) (by decide) (by decide) (by decide) (by decide) (by decide)
      (by decide)

end Golt
